import Mathlib

/-!
# Chat relay hub: a shallow embedding of `chat/server.go`

The Go program keeps its connections behind `*Client` pointers, shares them
between goroutines, and talks to three external services (the websocket
transport, the MongoDB driver and the profile provider).  The embedding makes
all of that explicit:

* a `World` holds the heap of `Client` values (indexed by address), the
  `clients` map local to `ChatRoom`, and logs of the observable effects
  (messages put on `messageChan`, `go client.SendMessage` dispatches,
  successful transport writes);
* every call into an external service takes its outcome as an argument, so a
  theorem quantifying over the outcome covers every behaviour of the service;
* a goroutine is a function from a world to a world, one call per atomic step.
-/

namespace Chat

/-! ## Data model -/

/-- The wire and storage shape of a chat message (`type Message struct`). -/
structure Message where
  ID : String
  Login : String
  Avatar : String
  UID : String
  Text : String
deriving DecidableEq, Repr

/-- The part of `*websocket.Conn` the program acts on: whether `Close` was
called, and whether `ChatRoom` installed its close handler, the closure
`delete(clients, newClient.uid)` over the client owning this connection. -/
structure Conn where
  closed : Bool
  closeHandlerSet : Bool
deriving DecidableEq, Repr

/-- The Go `type Client struct`. -/
structure Client where
  isConnected : Bool
  uid : String
  login : String
  avatar : String
  conn : Conn
deriving DecidableEq, Repr

/-- Address of a `Client`: the program passes `*Client` around. -/
abbrev Ptr := Nat

/-- Profile record of the provider (`user_data.User`), with the three fields
the chat server reads. -/
structure User where
  Uid : String
  Login : String
  Avatar : String
deriving DecidableEq, Repr

/-- The Go `type MessageJSON struct`. -/
structure MessageJSON where
  Status : String
  Payload : List Message
deriving DecidableEq, Repr

/-! ## Go maps with string keys

A map is a list of bindings with pairwise distinct keys.  Go leaves the
iteration order of a map unspecified; the order of the list is one such order,
and no statement below depends on it. -/

/-- Assignment `m[k] = v`. -/
def mapSet {β : Type} (m : List (String × β)) (k : String) (v : β) : List (String × β) :=
  (k, v) :: m.filter (fun e => decide (e.1 ≠ k))

/-- Builtin `delete(m, k)`. -/
def mapDelete {β : Type} (m : List (String × β)) (k : String) : List (String × β) :=
  m.filter (fun e => decide (e.1 ≠ k))

/-- Lookup `v, ok := m[k]`. -/
def mapGet {β : Type} (m : List (String × β)) (k : String) : Option β :=
  (m.find? (fun e => decide (e.1 = k))).map Prod.snd

/-! ## Program state -/

/-- Shared state of the chat process together with its effect logs. -/
structure World where
  /-- Every `Client` value, by address. -/
  heap : Ptr → Client
  /-- The map `clients` of `ChatRoom`: the registry. -/
  clients : List (String × Ptr)
  /-- Messages sent on `messageChan`, oldest first. -/
  messageChan : List Message
  /-- Every `go client.SendMessage(message)` dispatched by `ChatRoom`. -/
  sends : List (Ptr × Message)
  /-- Transport writes that succeeded. -/
  written : List (Ptr × Message)

/-! ## The Message Store driver -/

/-- A `primitive.ObjectID`: twelve bytes. -/
structure ObjectID where
  bytes : List (Fin 256)
  size : bytes.length = 12

/-- One lower-case hexadecimal digit. -/
def hexDigit (n : Nat) : Char :=
  if n < 10 then Char.ofNat (48 + n) else Char.ofNat (87 + n)

/-- Lower-case hexadecimal encoding, two digits per byte (`hex.EncodeToString`). -/
def hexEncode : List (Fin 256) → List Char
  | [] => []
  | b :: bs => hexDigit (b.val / 16) :: hexDigit (b.val % 16) :: hexEncode bs

/-- The method `ObjectID.Hex`. -/
def ObjectID.Hex (o : ObjectID) : String :=
  String.mk (hexEncode o.bytes)

/-- Dynamic content of the `interface{}` field `InsertedID`: the type assertion
`.(primitive.ObjectID)` succeeds on the first alternative only. -/
inductive InsertedIDValue where
  | objectID (o : ObjectID)
  | other

/-- The driver's `*mongo.InsertOneResult`. -/
structure InsertOneResult where
  InsertedID : InsertedIDValue

/-- What `collection.InsertOne` hands back: the pair `(result, err)`.  Both
components vary independently, as the Go signature allows: the result pointer
may be nil, and `err` may be set with a non-nil result (an unacknowledged
write). -/
structure InsertOutcome where
  result : Option InsertOneResult
  err : Bool

/-! ## The ingestion loop: `Client.ReceiveMessage` -/

/-- What one call of `client.conn.ReadJSON(&message)` meets on the wire. -/
inductive ReadResult where
  /-- A JSON object, decoded into a fresh `Message{}`: every field the client
  wrote is taken over, the others stay empty. -/
  | payload (m : Message)
  /-- A close frame of the peer. -/
  | closeFrame
  /-- Malformed JSON or a failed transport read. -/
  | readError
deriving DecidableEq

/-- Outcomes of the external calls of one loop iteration. -/
structure IterEnv where
  read : ReadResult
  /-- Whether `dbConnect()` returned an error. -/
  dbErr : Bool
  insert : InsertOutcome

/-- How control leaves one iteration of the loop. -/
inductive Flow where
  /-- The loop goes on to its next `ReadJSON`. -/
  | running
  /-- The function returned; the deferred cleanup ran. -/
  | returned
  /-- A run-time panic unwound the goroutine: the deferred cleanup ran and,
  nothing recovering it, the process stops. -/
  | panicked
deriving DecidableEq, Repr

/-- The deferred function of `ReceiveMessage`:
`client.isConnected = false; client.conn.Close()`. -/
def deferred (w : World) (p : Ptr) : World :=
  let c := w.heap p
  let c := { c with isConnected := false, conn := { c.conn with closed := true } }
  { w with heap := Function.update w.heap p c }

/-- The call `client.conn.ReadJSON(&message)`.  On a close frame the transport
runs the connection's close handler inside this call, on the reading
goroutine, and then reports an error; the handler `ChatRoom` installs is
`delete(clients, newClient.uid)`.  The result is the decoded message, or
`none` when `ReadJSON` returned an error. -/
def ReadJSON (w : World) (p : Ptr) : ReadResult → World × Option Message
  | .payload m => (w, some m)
  | .closeFrame =>
      if (w.heap p).conn.closeHandlerSet then
        ({ w with clients := mapDelete w.clients (w.heap p).uid }, none)
      else (w, none)
  | .readError => (w, none)

/-- The identity stamping of `ReceiveMessage` (lines 117 to 121). -/
def stamp (c : Client) (message : Message) : Message :=
  let message := { message with UID := c.uid }
  if c.uid ≠ "" then { message with Login := c.login, Avatar := c.avatar } else message

/-- One iteration of the `for` loop of `ReceiveMessage`. -/
def ReceiveMessage_iter (w : World) (p : Ptr) (e : IterEnv) : World × Flow :=
  match ReadJSON w p e.read with
  | (w, none) => (deferred w p, .returned)
  | (w, some message) =>
      if e.dbErr then (deferred w p, .returned)
      else
        let message := stamp (w.heap p) message
        -- `if err != nil` only prints "Failed to create message"
        match e.insert.result with
        | none => (deferred w p, .panicked)
        | some result =>
            match result.InsertedID with
            | .other => (deferred w p, .panicked)
            | .objectID o =>
                let message := { message with ID := o.Hex }
                ({ w with messageChan := w.messageChan ++ [message] }, .running)

/-- The loop of `ReceiveMessage` driven by the outcomes of its successive
iterations; when they are used up the goroutine is blocked in `ReadJSON`. -/
def ReceiveMessage (w : World) (p : Ptr) : List IterEnv → World × Flow
  | [] => (w, .running)
  | e :: es =>
      match ReceiveMessage_iter w p e with
      | (w1, .running) => ReceiveMessage w1 p es
      | r => r

/-! ## The send task: `Client.SendMessage` -/

/-- The body `client.conn.WriteJSON(*message)`: the error the write returns is
discarded. -/
def SendMessage (w : World) (p : Ptr) (message : Message) (writeOk : Bool) : World :=
  if writeOk then { w with written := w.written ++ [(p, message)] } else w

/-! ## The hub: `ChatRoom` -/

/-- The `case newClient := <-clientChan` branch.  The argument `userData` is
the result of `apiProvider.GetUsers([]string{newClient.uid})`, `none` standing
for a non-nil error. -/
def ChatRoom_join (w : World) (newClient : Ptr) (userData : Option (List User)) : World :=
  let c := w.heap newClient
  let clients := mapSet w.clients c.uid newClient
  let c := { c with conn := { c.conn with closeHandlerSet := true } }
  let c :=
    match userData with
    | some (u :: _) => { c with login := u.Login, avatar := u.Avatar }
    | _ => c
  { w with clients := clients, heap := Function.update w.heap newClient c }

/-- The `case message := <-messageChan` branch. -/
def ChatRoom_message (w : World) (message : Message) : World :=
  let alive := w.clients.filter (fun e => (w.heap e.2).isConnected)
  { w with sends := w.sends ++ alive.map (fun e => (e.2, message)) }

/-- An event taken by the `select` of `ChatRoom`. -/
inductive HubEvent where
  | join (newClient : Ptr) (userData : Option (List User))
  | message (m : Message)

/-- One turn of the `select`. -/
def ChatRoom_step (w : World) : HubEvent → World
  | .join p userData => ChatRoom_join w p userData
  | .message m => ChatRoom_message w m

/-- The hub loop over the events it takes, in order. -/
def ChatRoom (w : World) (events : List HubEvent) : World :=
  events.foldl ChatRoom_step w

/-- State at the start of `ChatRoom`: `clients := make(map[string]*Client)`. -/
def World.start (heap : Ptr → Client) : World :=
  { heap := heap, clients := [], messageChan := [], sends := [], written := [] }

/-! ## The History Endpoint: `HandleGetMessages` -/

/-- What the handler did to its `http.ResponseWriter`. -/
structure ResponseWriter where
  /-- The header map, one value per key (`Header().Set`). -/
  header : List (String × String)
  /-- Argument of the `WriteHeader` call, when one was made. -/
  status : Option Nat
  /-- Value whose JSON encoding was handed to `Write`, when one was. -/
  body : Option MessageJSON
deriving DecidableEq, Repr

/-- Status code `net/http` puts on the wire: the one given to `WriteHeader`,
and 200 (`http.StatusOK`) when the handler never called it, whether it wrote a
body or returned without writing anything. -/
def ResponseWriter.sentStatus (rw : ResponseWriter) : Nat :=
  rw.status.getD 200

/-- The Go function `setupResponse`. -/
def setupResponse (rw : ResponseWriter) : ResponseWriter :=
  let h := mapSet rw.header "Access-Control-Allow-Origin" "*"
  let h := mapSet h "Access-Control-Allow-Methods" "POST, GET, OPTIONS, PUT, DELETE"
  let h := mapSet h "Access-Control-Allow-Credentials" "true"
  let h := mapSet h "Access-Control-Allow-Headers"
    "Accept, Content-Type, Content-Length, Accept-Encoding, X-CSRF-Token, Authorization"
  { rw with header := h }

/-- The request and the outcomes of the external calls of one run of the
handler. -/
structure HistoryEnv where
  Method : String
  /-- Whether `dbConnect()` returned an error. -/
  dbErr : Bool
  /-- The call `collection.Find`: `none` for an error, otherwise the documents
  the cursor yields, each of which decodes into a `Message` (`some`) or fails
  to (`none`). -/
  find : Option (List (Option Message))
  /-- The call `apiProvider.GetUsers`, `none` standing for a non-nil error. -/
  GetUsers : List String → Option (List User)

/-- Result of one run of the handler: the response, and the arguments of the
calls of `apiProvider.GetUsers` it made, in order. -/
structure HistoryRun where
  response : ResponseWriter
  lookups : List (List String)

/-- The `for cursor.Next(ctx)` loop (lines 185 to 197), started with the
slices `messages` and `uids` built so far; `none` when a decode failed. -/
def readCursor : List (Option Message) → List Message → List String →
    Option (List Message × List String)
  | [], messages, uids => some (messages, uids)
  | none :: _, _, _ => none
  | some m :: docs, messages, uids =>
      readCursor docs (messages ++ [m]) (if m.UID ≠ "" then uids ++ [m.UID] else uids)

/-- The loop `for _, user := range users { userMap[user.Uid] = user }`. -/
def buildUserMap (users : List User) : List (String × User) :=
  users.foldl (fun userMap user => mapSet userMap user.Uid user) []

/-- Body of the loop over `messages` (lines 205 to 211). -/
def mergeProfile (userMap : List (String × User)) (msg : Message) : Message :=
  if msg.UID ≠ "" then
    match mapGet userMap msg.UID with
    | some user => { msg with Login := user.Login, Avatar := user.Avatar }
    | none => msg
  else msg

/-- The handler `HandleGetMessages`. -/
def HandleGetMessages (env : HistoryEnv) : HistoryRun :=
  let w := setupResponse { header := [], status := none, body := none }
  if env.Method = "OPTIONS" then { response := w, lookups := [] }
  else if env.dbErr then
    -- prints "Failed to connect DB" and returns
    { response := w, lookups := [] }
  else
    match env.find with
    | none => { response := { w with status := some 500 }, lookups := [] }
    | some docs =>
        match readCursor docs [] [] with
        | none => { response := { w with status := some 500 }, lookups := [] }
        | some (messages, uids) =>
            let messages :=
              match env.GetUsers uids with
              | some users => messages.map (mergeProfile (buildUserMap users))
              | none => messages
            { response := { w with body := some { Status := "success", Payload := messages } },
              lookups := [uids] }

/-! ## Scenarios and descriptions used in the statements -/

/-- The join events of the connections `joins`, each with the outcome of its
profile lookup, in order. -/
def joinEvents (joins : List (Ptr × Option (List User))) : List HubEvent :=
  joins.map (fun j => HubEvent.join j.1 j.2)

/-- The connection that joined last under `uid` among `ps`, if any. -/
def lastJoined (heap : Ptr → Client) (ps : List Ptr) (uid : String) : Option Ptr :=
  (ps.filter (fun p => decide ((heap p).uid = uid))).getLast?

/-- The ways the loop of `ReceiveMessage` returns: its `ReadJSON` meets a close
frame, its `ReadJSON` fails on a protocol or read error, or a payload arrives
while `dbConnect` fails. -/
inductive Stop where
  | closeFrame
  | readError
  | storeDown (payload : Message)
deriving DecidableEq

/-- The outcomes of the external calls in the iteration that stops the loop
that way; the append is not reached. -/
def Stop.env : Stop → IterEnv
  | .closeFrame =>
      { read := ReadResult.closeFrame, dbErr := false, insert := { result := none, err := true } }
  | .readError =>
      { read := ReadResult.readError, dbErr := false, insert := { result := none, err := true } }
  | .storeDown payload =>
      { read := ReadResult.payload payload, dbErr := true,
        insert := { result := none, err := true } }

/-- End of the ingestion loop of connection `t.1`, in the way `t.2`. -/
def terminate (w : World) (t : Ptr × Stop) : World :=
  (ReceiveMessage_iter w t.1 t.2.env).1

/-- The hub takes the join events of `joins`, then the ingestion loops of `ts`
end, in order. -/
def afterTerminations (heap : Ptr → Client) (joins : List (Ptr × Option (List User)))
    (ts : List (Ptr × Stop)) : World :=
  ts.foldl terminate (ChatRoom (World.start heap) (joinEvents joins))

/-- The uids of the connections among `ts` whose loop ended on a close frame. -/
def closedUids (heap : Ptr → Client) (ts : List (Ptr × Stop)) : List String :=
  (ts.filter (fun t => decide (t.2 = Stop.closeFrame))).map (fun t => (heap t.1).uid)

/-- The profile a history message ends up with: the last record of the lookup
result carrying the message's uid, provided the uid is not empty and the
lookup did not fail. -/
def profileOf (lookup : Option (List User)) (uid : String) : Option User :=
  if uid = "" then none
  else
    match lookup with
    | none => none
    | some users => (users.filter (fun u => decide (u.Uid = uid))).getLast?

/-- A history message as the endpoint returns it: with the login and avatar of
its profile when it has one, unchanged otherwise. -/
def withProfile (lookup : Option (List User)) (m : Message) : Message :=
  match profileOf lookup m.UID with
  | some u => { m with Login := u.Login, Avatar := u.Avatar }
  | none => m

/-! ## Concrete values used at the evaluation points -/

/-- The all-zero object identifier. -/
def oidZero : ObjectID := ⟨List.replicate 12 0, rfl⟩

/-- A live anonymous connection, not yet handled by the hub. -/
def anonClient : Client :=
  { isConnected := true, uid := "", login := "", avatar := "",
    conn := { closed := false, closeHandlerSet := false } }

/-- A heap where every address holds a live anonymous connection. -/
def anonHeap : Ptr → Client := fun _ => anonClient

/-- A heap of live connections: two identified ones, with uids `"a"` and
`"b"`, at addresses 0 and 1, and anonymous ones elsewhere. -/
def mixedHeap : Ptr → Client := fun p =>
  if p = 0 then { anonClient with uid := "a" }
  else if p = 1 then { anonClient with uid := "b" }
  else anonClient

/-- A successful append returning `oidZero`. -/
def insertOk : InsertOutcome := { result := some ⟨.objectID oidZero⟩, err := false }

/-- The payload `{"text": t}`. -/
def textPayload (t : String) : Message :=
  { ID := "", Login := "", Avatar := "", UID := "", Text := t }

/-- The store is unreachable for a first payload and answers for a second. -/
def storeDownThenUp : List IterEnv :=
  [ { read := .payload (textPayload "first"), dbErr := true, insert := insertOk },
    { read := .payload (textPayload "second"), dbErr := false, insert := insertOk } ]

/-- A payload in which the client itself fills in the identity fields. -/
def forgedPayload : Message :=
  { ID := "", Login := "admin", Avatar := "admin.png", UID := "someone", Text := "hi" }

/-- The hub has taken the join of the anonymous connection at address 0, whose
profile lookup failed. -/
def oneJoined : World :=
  ChatRoom_join (World.start anonHeap) 0 none

/-- A stored message of the identified user `u1`, with the login and avatar
the ingestion loop stamped on it before the append. -/
def storedBob (text : String) : Message :=
  { ID := "", Login := "bob", Avatar := "bob.png", UID := "u1", Text := text }

/-- A history request for which the store returns one message of `u1` and the
profile lookup fails as a whole. -/
def lookupDown : HistoryEnv :=
  { Method := "GET", dbErr := false, find := some [some (storedBob "x")],
    GetUsers := fun _ => none }

/-- A history request for which the store returns two messages of `u1`. -/
def twoOfSameUser : HistoryEnv :=
  { Method := "GET", dbErr := false, find := some [some (storedBob "x"), some (storedBob "y")],
    GetUsers := fun _ => some [] }

/-- Two anonymous connections join, then a message is accepted. -/
def twoAnonymousThenMessage : List HubEvent :=
  [.join 0 none, .join 1 none, .message (textPayload "hi")]

/-! ## The ingestion loop -/

theorem hexEncode_ne_nil (bs : List (Fin 256)) (h : bs ≠ []) : hexEncode bs ≠ [] := by
  cases bs with
  | nil => exact absurd rfl h
  | cons b bs => simp [hexEncode]

/-- Every object identifier has a non-empty hexadecimal form. -/
theorem ObjectID.Hex_ne_empty (o : ObjectID) : o.Hex ≠ "" := by
  have hb : o.bytes ≠ [] := by
    intro h
    have := o.size
    rw [h] at this
    simp at this
  have hne := hexEncode_ne_nil o.bytes hb
  intro h
  apply hne
  have := congrArg String.data h
  simpa [ObjectID.Hex] using this

/-- What one iteration puts on the queue: nothing, or one message whose id is
the hexadecimal form of the object identifier in the result of `InsertOne`,
whose uid is the connection's and whose text is the payload's. -/
theorem ReceiveMessage_iter_queue (w : World) (p : Ptr) (e : IterEnv) :
    (ReceiveMessage_iter w p e).1.messageChan = w.messageChan ∨
    ∃ o payload, e.insert.result = some ⟨.objectID o⟩ ∧ e.read = .payload payload ∧
      (ReceiveMessage_iter w p e).1.messageChan =
        w.messageChan ++ [{ stamp (w.heap p) payload with ID := o.Hex }] := by
  rcases e with ⟨read, dbErr, ⟨result, err⟩⟩
  cases read with
  | payload m =>
      cases dbErr with
      | true => left; rfl
      | false =>
          cases result with
          | none => left; rfl
          | some r =>
              rcases r with ⟨v⟩
              cases v with
              | other => left; rfl
              | objectID o => right; exact ⟨o, m, rfl, rfl, rfl⟩
  | closeFrame =>
      left
      by_cases h : (w.heap p).conn.closeHandlerSet = true <;>
        simp [ReceiveMessage_iter, ReadJSON, h, deferred]
  | readError => left; rfl

/-- C1 (defect of the code): the append reports a failure (`err` is set) and
the iteration, which only prints on `err != nil`, still puts the message on the
hub's queue when the driver returned a result with the error; when the driver
returned a nil result the same fall-through dereferences it and panics. -/
theorem C1_failed_append_still_forwarded :
    (ReceiveMessage_iter (World.start anonHeap) 0
        { read := .payload (textPayload "hi"), dbErr := false,
          insert := { result := some ⟨.objectID oidZero⟩, err := true } }).1.messageChan
      = [{ ID := "000000000000000000000000", Login := "", Avatar := "", UID := "", Text := "hi" }]
    ∧ (ReceiveMessage_iter (World.start anonHeap) 0
        { read := .payload (textPayload "hi"), dbErr := false,
          insert := { result := some ⟨.objectID oidZero⟩, err := true } }).2 = Flow.running
    ∧ (ReceiveMessage_iter (World.start anonHeap) 0
        { read := .payload (textPayload "hi"), dbErr := false,
          insert := { result := none, err := true } }).2 = Flow.panicked := by
  decide

/-- C2 (as stated, refuted): the store is unreachable for a first payload and
answers for the second; the loop has returned after the first, the connection
is marked dead and closed, and the second payload is not forwarded. -/
theorem C2_store_down_ends_loop :
    (ReceiveMessage (World.start anonHeap) 0 storeDownThenUp).2 = Flow.returned
    ∧ (ReceiveMessage (World.start anonHeap) 0 storeDownThenUp).1.messageChan = []
    ∧ ((ReceiveMessage (World.start anonHeap) 0 storeDownThenUp).1.heap 0).isConnected = false
    ∧ ((ReceiveMessage (World.start anonHeap) 0 storeDownThenUp).1.heap 0).conn.closed = true := by
  decide

/-- C2 (amended): when `dbConnect` fails for an inbound payload, whatever the
connection and whatever arrives later, the loop returns at once; the payload
and all later ones are not forwarded, and the deferred cleanup marks the
connection dead and closes it. -/
theorem C2_unreachable_store_returns (w : World) (p : Ptr) (m : Message)
    (ins : InsertOutcome) (rest : List IterEnv) :
    (ReceiveMessage w p ({ read := .payload m, dbErr := true, insert := ins } :: rest)).2
      = Flow.returned
    ∧ (ReceiveMessage w p ({ read := .payload m, dbErr := true, insert := ins } :: rest)).1.messageChan
      = w.messageChan
    ∧ ((ReceiveMessage w p ({ read := .payload m, dbErr := true, insert := ins } :: rest)).1.heap p).isConnected
      = false
    ∧ ((ReceiveMessage w p ({ read := .payload m, dbErr := true, insert := ins } :: rest)).1.heap p).conn.closed
      = true := by
  simp [ReceiveMessage, ReceiveMessage_iter, ReadJSON, deferred]

/-- For an identified connection the three identity fields of the forwarded
message are the connection's, whatever the payload. -/
theorem stamp_identified (c : Client) (payload : Message) (h : c.uid ≠ "") :
    stamp c payload =
      { ID := payload.ID, Login := c.login, Avatar := c.avatar, UID := c.uid, Text := payload.Text } := by
  simp [stamp, h]

/-- For an anonymous connection only the uid is overwritten: login and avatar
are the payload's. -/
theorem stamp_anonymous (c : Client) (payload : Message) (h : c.uid = "") :
    stamp c payload = { payload with UID := "" } := by
  simp [stamp, h]

/-- C6 (as stated, refuted): on an anonymous connection the login and avatar of
the forwarded message are the ones the client wrote in its payload, not empty
ones, and two payloads give two different identities. -/
theorem C6_anonymous_identity_from_payload :
    (anonHeap 0).uid = ""
    ∧ (ReceiveMessage_iter (World.start anonHeap) 0
        { read := .payload forgedPayload, dbErr := false, insert := insertOk }).1.messageChan
      = [{ ID := "000000000000000000000000", Login := "admin", Avatar := "admin.png",
           UID := "", Text := "hi" }]
    ∧ (ReceiveMessage_iter (World.start anonHeap) 0
        { read := .payload (textPayload "hi"), dbErr := false, insert := insertOk }).1.messageChan
      = [{ ID := "000000000000000000000000", Login := "", Avatar := "", UID := "", Text := "hi" }] := by
  decide

/-- C6 (amended): for every connection and every payload, with the store
answering, the iteration forwards one message; its uid is the connection's and
never the payload's, its text is the payload's, and its login and avatar are
the connection's when the connection is identified (non-empty uid) and the
payload's when it is anonymous. -/
theorem C6_forwarded_identity (w : World) (p : Ptr) (payload : Message) (o : ObjectID) :
    (ReceiveMessage_iter w p
        { read := .payload payload, dbErr := false,
          insert := { result := some ⟨.objectID o⟩, err := false } }).1.messageChan
      = w.messageChan ++
          [{ ID := o.Hex,
             Login := if (w.heap p).uid ≠ "" then (w.heap p).login else payload.Login,
             Avatar := if (w.heap p).uid ≠ "" then (w.heap p).avatar else payload.Avatar,
             UID := (w.heap p).uid,
             Text := payload.Text }]
    ∧ (ReceiveMessage_iter w p
        { read := .payload payload, dbErr := false,
          insert := { result := some ⟨.objectID o⟩, err := false } }).2 = Flow.running := by
  by_cases h : (w.heap p).uid = "" <;>
    simp [ReceiveMessage_iter, ReadJSON, stamp, h]

/-! ## Steps of the other tasks and the registry -/

/-- The deferred cleanup leaves the registry alone. -/
theorem deferred_clients (w : World) (p : Ptr) : (deferred w p).clients = w.clients := rfl

/-- Registry after `ReadJSON`. -/
theorem ReadJSON_clients (w : World) (p : Ptr) (r : ReadResult) :
    (ReadJSON w p r).1.clients =
      if r = ReadResult.closeFrame ∧ (w.heap p).conn.closeHandlerSet = true
      then mapDelete w.clients (w.heap p).uid else w.clients := by
  cases r with
  | payload m => simp [ReadJSON]
  | closeFrame =>
      by_cases h : (w.heap p).conn.closeHandlerSet = true <;> simp [ReadJSON, h]
  | readError => simp [ReadJSON]

/-- Registry after one iteration of the ingestion loop. -/
theorem ReceiveMessage_iter_clients (w : World) (p : Ptr) (e : IterEnv) :
    (ReceiveMessage_iter w p e).1.clients =
      if e.read = ReadResult.closeFrame ∧ (w.heap p).conn.closeHandlerSet = true
      then mapDelete w.clients (w.heap p).uid else w.clients := by
  rcases e with ⟨read, dbErr, ⟨result, err⟩⟩
  cases read with
  | payload m =>
      cases dbErr with
      | true => simp [ReceiveMessage_iter, ReadJSON, deferred]
      | false =>
          cases result with
          | none => simp [ReceiveMessage_iter, ReadJSON, deferred]
          | some r =>
              rcases r with ⟨v⟩
              cases v <;> simp [ReceiveMessage_iter, ReadJSON, deferred]
  | closeFrame =>
      by_cases h : (w.heap p).conn.closeHandlerSet = true <;>
        simp [ReceiveMessage_iter, ReadJSON, h, deferred]
  | readError => simp [ReceiveMessage_iter, ReadJSON, deferred]

/-- C9 (as stated, refuted): the connection at address 0 is registered, its
peer sends a close frame, and the iteration of its ingestion loop that reads
the frame empties the registry. -/
theorem C9_close_frame_changes_registry :
    oneJoined.clients = [("", 0)]
    ∧ (ReceiveMessage_iter oneJoined 0
        { read := .closeFrame, dbErr := false, insert := insertOk }).1.clients = [] := by
  decide

/-- C9 (amended): an iteration of the ingestion loop changes the registry in
one case only, when its `ReadJSON` meets a close frame on a connection whose
close handler the hub has installed, and then by deleting the binding under
that connection's uid; every other iteration, and every send task whatever the
outcome of its write, leaves the registry unchanged. -/
theorem C9_registry_frame (w : World) (p : Ptr) (e : IterEnv) (message : Message)
    (writeOk : Bool) :
    (ReceiveMessage_iter w p e).1.clients =
      (if e.read = ReadResult.closeFrame ∧ (w.heap p).conn.closeHandlerSet = true
       then mapDelete w.clients (w.heap p).uid else w.clients)
    ∧ (SendMessage w p message writeOk).clients = w.clients := by
  refine ⟨ReceiveMessage_iter_clients w p e, ?_⟩
  cases writeOk <;> rfl

/-- C5 (as stated, refuted): the write of a send to the registered connection
at address 0 fails; the connection is still marked connected and the next
broadcast dispatches a send to it. -/
theorem C5_failed_write_keeps_connection :
    ((SendMessage oneJoined 0 (textPayload "one") false).heap 0).isConnected = true
    ∧ (ChatRoom_message (SendMessage oneJoined 0 (textPayload "one") false)
        (textPayload "two")).sends = [(0, textPayload "two")] := by
  decide

/-- C5 (amended): a failed write of `SendMessage` changes nothing: the error is
discarded, `isConnected` keeps its value, and a later broadcast dispatches the
very sends it would have dispatched without the failed write, one of them to
this connection when it is registered and still marked connected. -/
theorem C5_failed_write_changes_nothing (w : World) (p : Ptr) (message later : Message) :
    ((SendMessage w p message false).heap p).isConnected = (w.heap p).isConnected
    ∧ (SendMessage w p message false).clients = w.clients
    ∧ (ChatRoom_message (SendMessage w p message false) later).sends
        = (ChatRoom_message w later).sends
    ∧ ((p, later) ∈ (ChatRoom_message (SendMessage w p message false) later).sends ↔
        (p, later) ∈ w.sends ∨ ((∃ k, (k, p) ∈ w.clients) ∧ (w.heap p).isConnected = true)) := by
  refine ⟨rfl, rfl, rfl, ?_⟩
  simp only [SendMessage, ChatRoom_message, Bool.false_eq_true, if_false, List.mem_append,
    List.mem_map, List.mem_filter, Prod.mk.injEq, and_true]
  constructor
  · rintro (h | ⟨e, ⟨he, halive⟩, hp⟩)
    · exact Or.inl h
    · subst hp
      exact Or.inr ⟨⟨e.1, he⟩, halive⟩
  · rintro (h | ⟨⟨k, hk⟩, halive⟩)
    · exact Or.inl h
    · exact Or.inr ⟨(k, p), ⟨hk, halive⟩, rfl⟩

/-! ## The History Endpoint -/

theorem mapGet_mapSet {β : Type} (m : List (String × β)) (k k' : String) (v : β) :
    mapGet (mapSet m k v) k' = if k = k' then some v else mapGet m k' := by
  by_cases h : k = k'
  · simp [mapGet, mapSet, h]
  · have hfun : (fun a : String × β => (!decide (a.1 = k)) && decide (a.1 = k')) =
        (fun a : String × β => decide (a.1 = k')) := by
      funext a
      by_cases ha : a.1 = k'
      · have : a.1 ≠ k := fun hk => h (hk.symm.trans ha)
        simp [ha, this]
        intro hk; exact h hk.symm
      · simp [ha]
    simp [mapGet, mapSet, h, List.find?_filter, hfun]

/-- The profile map holds, under each uid, the last record of the lookup
result with that uid. -/
theorem mapGet_foldl_mapSet (users : List User) (m0 : List (String × User)) (k : String) :
    mapGet (users.foldl (fun userMap user => mapSet userMap user.Uid user) m0) k =
      ((users.filter (fun u => decide (u.Uid = k))).getLast?).or (mapGet m0 k) := by
  induction users generalizing m0 with
  | nil => simp
  | cons u us ih =>
      rw [List.foldl_cons, ih, mapGet_mapSet]
      by_cases h : u.Uid = k
      · simp only [h, if_true, List.filter_cons, decide_True, List.getLast?_cons]
        cases (us.filter (fun u => decide (u.Uid = k))).getLast? <;> simp
      · simp [h, List.filter_cons]

theorem mapGet_buildUserMap (users : List User) (k : String) :
    mapGet (buildUserMap users) k = (users.filter (fun u => decide (u.Uid = k))).getLast? := by
  unfold buildUserMap
  rw [mapGet_foldl_mapSet]
  simp [mapGet]

/-- The merge of the handler is the description `withProfile`. -/
theorem mergeProfile_eq (users : List User) (m : Message) :
    mergeProfile (buildUserMap users) m = withProfile (some users) m := by
  unfold mergeProfile withProfile profileOf
  by_cases h : m.UID = ""
  · simp [h]
  · simp [h, mapGet_buildUserMap]

theorem withProfile_none (m : Message) : withProfile none m = m := by
  unfold withProfile profileOf
  by_cases h : m.UID = "" <;> simp [h]

/-- The cursor loop on documents that all decode. -/
theorem readCursor_decoded (msgs messages : List Message) (uids : List String) :
    readCursor (msgs.map some) messages uids =
      some (messages ++ msgs,
        uids ++ (msgs.filter (fun m => decide (m.UID ≠ ""))).map Message.UID) := by
  induction msgs generalizing messages uids with
  | nil => simp [readCursor]
  | cons m ms ih =>
      simp only [List.map_cons, readCursor]
      rw [ih]
      by_cases h : m.UID = ""
      · simp [h, List.filter_cons]
      · simp [h, List.filter_cons]

/-- The handler, for a request that is not a preflight probe, with the store
reachable and all documents decoding. -/
theorem HandleGetMessages_ok (method : String) (msgs : List Message)
    (GetUsers : List String → Option (List User)) (hm : method ≠ "OPTIONS") :
    (HandleGetMessages
        { Method := method, dbErr := false, find := some (msgs.map some), GetUsers := GetUsers }).response.body
      = some { Status := "success",
               Payload := msgs.map (withProfile
                 (GetUsers ((msgs.filter (fun m => decide (m.UID ≠ ""))).map Message.UID))) }
    ∧ (HandleGetMessages
        { Method := method, dbErr := false, find := some (msgs.map some), GetUsers := GetUsers }).lookups
      = [(msgs.filter (fun m => decide (m.UID ≠ ""))).map Message.UID] := by
  simp only [HandleGetMessages, hm, if_false, readCursor_decoded, List.nil_append]
  cases hg : GetUsers ((msgs.filter (fun m => decide (m.UID ≠ ""))).map Message.UID) with
  | none =>
      have hid : withProfile none = id := funext withProfile_none
      simp [hg, hid]
  | some users =>
      have hfn : mergeProfile (buildUserMap users) = withProfile (some users) :=
        funext (mergeProfile_eq users)
      simp [hg, hfn]

theorem profileOf_some (lookup : Option (List User)) (uid : String) (u : User)
    (h : profileOf lookup uid = some u) :
    uid ≠ "" ∧ u.Uid = uid ∧ ∃ users, lookup = some users ∧ u ∈ users := by
  unfold profileOf at h
  by_cases hu : uid = ""
  · simp [hu] at h
  · cases lookup with
    | none => simp [hu] at h
    | some users =>
        simp only [hu, if_false] at h
        have hmem := List.mem_of_getLast?_eq_some h
        rw [List.mem_filter] at hmem
        exact ⟨hu, by simpa using hmem.2, users, rfl, hmem.1⟩

theorem profileOf_eq_none (lookup : Option (List User)) (uid : String)
    (h : uid = "" ∨ lookup = none ∨ ∃ users, lookup = some users ∧ ∀ u ∈ users, u.Uid ≠ uid) :
    profileOf lookup uid = none := by
  unfold profileOf
  rcases h with h | h | ⟨users, h, hno⟩
  · simp [h]
  · simp [h]
  · subst h
    by_cases hu : uid = ""
    · simp [hu]
    · have : users.filter (fun u => decide (u.Uid = uid)) = [] := by
        rw [List.filter_eq_nil_iff]
        intro u hmem
        simpa using hno u hmem
      simp [hu, this]

/-- C7 (as stated, refuted): the store returns a message of `u1` carrying the
login `bob` stamped at ingestion, and the profile lookup fails as a whole; the
message is returned with that login and avatar, not with empty ones. -/
theorem C7_stored_login_survives_failed_lookup :
    (HandleGetMessages lookupDown).response.body
      = some { Status := "success",
               Payload := [{ ID := "", Login := "bob", Avatar := "bob.png", UID := "u1", Text := "x" }] } := by
  decide

/-- C7 (amended): for a request that is not a preflight probe, every sequence
of messages returned by the store and every outcome of the profile lookup, the
payload has the length and order of the store's sequence, each message keeping
its id, uid and text; a message whose non-empty uid is in the lookup result
carries the login and avatar of the last profile of the result with that uid;
every other message (anonymous, uid not in the result, lookup failed) is
returned exactly as the store returned it, login and avatar included. -/
theorem C7_history_payload (method : String) (msgs : List Message)
    (GetUsers : List String → Option (List User)) (hm : method ≠ "OPTIONS") :
    ∃ payload lookup,
      (HandleGetMessages
          { Method := method, dbErr := false, find := some (msgs.map some),
            GetUsers := GetUsers }).response.body
        = some { Status := "success", Payload := payload }
      ∧ lookup = GetUsers ((msgs.filter (fun m => decide (m.UID ≠ ""))).map Message.UID)
      ∧ payload = msgs.map (withProfile lookup)
      ∧ payload.length = msgs.length
      ∧ ∀ m : Message,
          (withProfile lookup m).ID = m.ID
          ∧ (withProfile lookup m).UID = m.UID
          ∧ (withProfile lookup m).Text = m.Text
          ∧ (∀ u, profileOf lookup m.UID = some u →
              m.UID ≠ "" ∧ u.Uid = m.UID ∧ (∃ users, lookup = some users ∧ u ∈ users)
              ∧ (withProfile lookup m).Login = u.Login
              ∧ (withProfile lookup m).Avatar = u.Avatar)
          ∧ ((m.UID = "" ∨ lookup = none ∨
                ∃ users, lookup = some users ∧ ∀ u ∈ users, u.Uid ≠ m.UID) →
              withProfile lookup m = m) := by
  refine ⟨_, _, (HandleGetMessages_ok method msgs GetUsers hm).1, rfl, rfl, by simp, ?_⟩
  intro m
  generalize GetUsers ((msgs.filter (fun m => decide (m.UID ≠ ""))).map Message.UID) = lookup
  have hcases : ∀ o : Option User, profileOf lookup m.UID = o →
      (match o with
        | some u => withProfile lookup m = { m with Login := u.Login, Avatar := u.Avatar }
        | none => withProfile lookup m = m) := by
    intro o ho
    unfold withProfile
    rw [ho]
    cases o <;> rfl
  cases hp : profileOf lookup m.UID with
  | none =>
      have h := hcases none hp
      simp only at h
      refine ⟨by rw [h], by rw [h], by rw [h], ?_, fun _ => h⟩
      intro u hu
      simp at hu
  | some v =>
      have h := hcases (some v) hp
      simp only at h
      refine ⟨by rw [h], by rw [h], by rw [h], ?_, ?_⟩
      · intro u hu
        have huv : v = u := by simpa using hu
        subst huv
        obtain ⟨h1, h2, h3⟩ := profileOf_some lookup m.UID v hp
        exact ⟨h1, h2, h3, by rw [h], by rw [h]⟩
      · intro hnone
        have := profileOf_eq_none lookup m.UID hnone
        rw [hp] at this
        simp at this

/-- C7 (amended), at a concrete request: the lookup fails and the one stored
message comes back as it was stored. -/
theorem C7_history_payload_witness :
    "GET" ≠ "OPTIONS" ∧
    ∃ payload,
      (HandleGetMessages
          { Method := "GET", dbErr := false, find := some ([storedBob "x"].map some),
            GetUsers := fun _ => none }).response.body
        = some { Status := "success", Payload := payload }
      ∧ payload = [storedBob "x"] := by
  refine ⟨by decide, ?_⟩
  obtain ⟨payload, lookup, hbody, hlookup, hpay, _, _⟩ :=
    C7_history_payload "GET" [storedBob "x"] (fun _ => none) (by decide)
  refine ⟨payload, hbody, ?_⟩
  rw [hpay, hlookup]
  simp [withProfile_none]

/-- C8 (defect of the code): on a request that is not a preflight probe, with
`dbConnect` failing, the handler returns without calling `WriteHeader`, so the
response goes out with status 200 and no body; the two sibling failures, of
the find query and of a decode, do answer 500. -/
theorem C8_unreachable_store_answers_200 (find : Option (List (Option Message)))
    (GetUsers : List String → Option (List User)) (docs : List (Option Message)) :
    (HandleGetMessages
        { Method := "GET", dbErr := true, find := find, GetUsers := GetUsers }).response.status = none
    ∧ (HandleGetMessages
        { Method := "GET", dbErr := true, find := find, GetUsers := GetUsers }).response.body = none
    ∧ (HandleGetMessages
        { Method := "GET", dbErr := true, find := find, GetUsers := GetUsers }).response.sentStatus = 200
    ∧ (HandleGetMessages
        { Method := "GET", dbErr := false, find := none, GetUsers := GetUsers }).response.sentStatus = 500
    ∧ (HandleGetMessages
        { Method := "GET", dbErr := false, find := some (none :: docs),
          GetUsers := GetUsers }).response.sentStatus = 500 := by
  refine ⟨?_, ?_, ?_, ?_, ?_⟩ <;>
    simp [HandleGetMessages, setupResponse, ResponseWriter.sentStatus, readCursor]

/-- C10 (as stated, refuted): the store returns two messages of the same user
and the lookup is called with that user's identifier listed twice. -/
theorem C10_duplicate_uid_in_lookup :
    (HandleGetMessages twoOfSameUser).lookups = [["u1", "u1"]] := by
  decide

/-- C10 (amended): for a request that is not a preflight probe and every
sequence of messages returned by the store, the handler makes one profile
lookup; its argument contains no empty identifier and lists the uid of every
message with a non-empty uid, in the order of the messages and once per such
message, so an identifier occurs in it exactly when it is a non-empty uid of
some message, and as many times as there are messages carrying it. -/
theorem C10_lookup_argument (method : String) (msgs : List Message)
    (GetUsers : List String → Option (List User)) (hm : method ≠ "OPTIONS") :
    ∃ uids,
      (HandleGetMessages
          { Method := method, dbErr := false, find := some (msgs.map some),
            GetUsers := GetUsers }).lookups = [uids]
      ∧ uids = (msgs.filter (fun m => decide (m.UID ≠ ""))).map Message.UID
      ∧ "" ∉ uids
      ∧ (∀ u, u ∈ uids ↔ u ≠ "" ∧ ∃ m ∈ msgs, m.UID = u)
      ∧ ∀ u, u ≠ "" → uids.count u = (msgs.filter (fun m => decide (m.UID = u))).length := by
  refine ⟨_, (HandleGetMessages_ok method msgs GetUsers hm).2, rfl, ?_, ?_, ?_⟩
  · simp
  · intro u
    simp only [List.mem_map, List.mem_filter, decide_eq_true_eq]
    constructor
    · rintro ⟨m, ⟨hmem, hne⟩, rfl⟩
      exact ⟨hne, m, hmem, rfl⟩
    · rintro ⟨hne, m, hmem, rfl⟩
      exact ⟨m, ⟨hmem, hne⟩, rfl⟩
  · intro u hu
    induction msgs with
    | nil => simp
    | cons m ms ih =>
        by_cases h1 : m.UID = ""
        · have h2 : m.UID ≠ u := fun h => hu (h ▸ h1)
          have h4 : ¬ "" = u := fun h => hu h.symm
          simpa [List.filter_cons, h1, h2, h4] using ih
        · by_cases h2 : m.UID = u
          · simp [List.filter_cons, h1, h2, hu] at ih ⊢
            exact ih
          · have h3 : (m.UID == u) = false := by simpa using h2
            simp [List.filter_cons, h1, h2, List.count_cons, h3] at ih ⊢
            exact ih

/-- C10 (amended), at a concrete request: two messages of one user. -/
theorem C10_lookup_argument_witness :
    "GET" ≠ "OPTIONS" ∧
    ∃ uids,
      (HandleGetMessages
          { Method := "GET", dbErr := false,
            find := some ([storedBob "x", storedBob "y"].map some),
            GetUsers := fun _ => some [] }).lookups = [uids]
      ∧ uids.count "u1" = 2 := by
  refine ⟨by decide, ?_⟩
  obtain ⟨uids, hl, _, _, _, hcount⟩ :=
    C10_lookup_argument "GET" [storedBob "x", storedBob "y"] (fun _ => some []) (by decide)
  exact ⟨uids, hl, by rw [hcount "u1" (by decide)]; decide⟩

/-! ## The hub: registry after a sequence of joins -/

theorem ChatRoom_join_clients (w : World) (p : Ptr) (userData : Option (List User)) :
    (ChatRoom_join w p userData).clients = mapSet w.clients (w.heap p).uid p := rfl

/-- A join changes neither the uid nor the liveness flag of any connection. -/
theorem ChatRoom_join_heap (w : World) (p : Ptr) (userData : Option (List User)) (q : Ptr) :
    ((ChatRoom_join w p userData).heap q).uid = (w.heap q).uid
    ∧ ((ChatRoom_join w p userData).heap q).isConnected = (w.heap q).isConnected := by
  unfold ChatRoom_join
  by_cases h : q = p
  · subst h
    rcases userData with _ | ⟨_ | ⟨u, us⟩⟩ <;> simp
  · rcases userData with _ | ⟨_ | ⟨u, us⟩⟩ <;> simp [Function.update_noteq h]

/-- A join installs the close handler of the joining connection and keeps the
handlers already installed. -/
theorem ChatRoom_join_handler (w : World) (p : Ptr) (userData : Option (List User)) (q : Ptr) :
    ((ChatRoom_join w p userData).heap q).conn.closeHandlerSet =
      (decide (q = p) || (w.heap q).conn.closeHandlerSet) := by
  unfold ChatRoom_join
  by_cases h : q = p
  · subst h
    rcases userData with _ | ⟨_ | ⟨u, us⟩⟩ <;> simp
  · rcases userData with _ | ⟨_ | ⟨u, us⟩⟩ <;> simp [Function.update_noteq h, h]

theorem ChatRoom_join_sends (w : World) (p : Ptr) (userData : Option (List User)) :
    (ChatRoom_join w p userData).sends = w.sends := rfl

theorem ChatRoom_joins_concat (w : World) (js : List (Ptr × Option (List User)))
    (j : Ptr × Option (List User)) :
    ChatRoom w (joinEvents (js ++ [j])) = ChatRoom_join (ChatRoom w (joinEvents js)) j.1 j.2 := by
  simp [ChatRoom, joinEvents, List.foldl_append, ChatRoom_step]

/-- Joins change neither uids nor liveness flags, and dispatch nothing. -/
theorem ChatRoom_joins_heap (w : World) (joins : List (Ptr × Option (List User))) :
    (∀ q, ((ChatRoom w (joinEvents joins)).heap q).uid = (w.heap q).uid
      ∧ ((ChatRoom w (joinEvents joins)).heap q).isConnected = (w.heap q).isConnected)
    ∧ (ChatRoom w (joinEvents joins)).sends = w.sends := by
  induction joins using List.reverseRecOn with
  | nil => simp [ChatRoom, joinEvents]
  | append_singleton js j ih =>
      rw [ChatRoom_joins_concat]
      refine ⟨fun q => ?_, ?_⟩
      · have h := ChatRoom_join_heap (ChatRoom w (joinEvents js)) j.1 j.2 q
        exact ⟨h.1.trans (ih.1 q).1, h.2.trans (ih.1 q).2⟩
      · rw [ChatRoom_join_sends]; exact ih.2

theorem lastJoined_concat (heap : Ptr → Client) (ps : List Ptr) (q : Ptr) (k : String) :
    lastJoined heap (ps ++ [q]) k =
      if (heap q).uid = k then some q else lastJoined heap ps k := by
  unfold lastJoined
  by_cases h : (heap q).uid = k
  · simp [List.filter_append, h, List.filter_cons]
  · simp [List.filter_append, h, List.filter_cons]

theorem lastJoined_some (heap : Ptr → Client) (ps : List Ptr) (k : String) (p : Ptr)
    (h : lastJoined heap ps k = some p) : p ∈ ps ∧ (heap p).uid = k := by
  unfold lastJoined at h
  have hmem := List.mem_of_getLast?_eq_some h
  rw [List.mem_filter] at hmem
  exact ⟨hmem.1, by simpa using hmem.2⟩

theorem mem_mapSet {β : Type} (m : List (String × β)) (k : String) (v : β) (e : String × β) :
    e ∈ mapSet m k v ↔ e = (k, v) ∨ (e ∈ m ∧ e.1 ≠ k) := by
  simp [mapSet, List.mem_filter]

theorem mapSet_keys_nodup {β : Type} (m : List (String × β)) (k : String) (v : β)
    (h : (m.map Prod.fst).Nodup) : ((mapSet m k v).map Prod.fst).Nodup := by
  unfold mapSet
  rw [List.map_cons, List.nodup_cons]
  refine ⟨?_, ?_⟩
  · intro hk
    rw [List.mem_map] at hk
    obtain ⟨e, he, hek⟩ := hk
    rw [List.mem_filter] at he
    have : e.1 ≠ k := by simpa using he.2
    exact this hek
  · exact h.sublist ((List.filter_sublist m).map Prod.fst)

/-- The registry after a sequence of joins, started empty: its keys are
pairwise distinct, and it binds a uid to a connection exactly when that
connection is the last one that joined under the uid. -/
theorem ChatRoom_joins_registry (heap : Ptr → Client)
    (joins : List (Ptr × Option (List User))) :
    ((ChatRoom (World.start heap) (joinEvents joins)).clients.map Prod.fst).Nodup
    ∧ ∀ k p, (k, p) ∈ (ChatRoom (World.start heap) (joinEvents joins)).clients ↔
        lastJoined heap (joins.map Prod.fst) k = some p := by
  induction joins using List.reverseRecOn with
  | nil => simp [ChatRoom, joinEvents, World.start, lastJoined]
  | append_singleton js j ih =>
      rw [ChatRoom_joins_concat, ChatRoom_join_clients]
      have huid : ((ChatRoom (World.start heap) (joinEvents js)).heap j.1).uid = (heap j.1).uid :=
        ((ChatRoom_joins_heap (World.start heap) js).1 j.1).1
      rw [huid]
      refine ⟨mapSet_keys_nodup _ _ _ ih.1, ?_⟩
      intro k p
      rw [mem_mapSet, List.map_append, List.map_singleton, lastJoined_concat, ih.2 k p]
      by_cases hk : (heap j.1).uid = k
      · simp only [hk, if_true, Prod.mk.injEq, true_and, ne_eq, not_true, and_false, or_false]
        constructor
        · intro h; rw [h]
        · intro h; exact (Option.some.inj h).symm
      · simp only [hk, if_false, Prod.mk.injEq]
        constructor
        · rintro (⟨h, _⟩ | ⟨h, _⟩)
          · exact absurd h.symm hk
          · exact h
        · intro h
          exact Or.inr ⟨h, fun h' => hk h'.symm⟩

/-- No connection is bound twice in the registry built by joins. -/
theorem ChatRoom_joins_ptrs_nodup (heap : Ptr → Client)
    (joins : List (Ptr × Option (List User))) :
    ((ChatRoom (World.start heap) (joinEvents joins)).clients.map Prod.snd).Nodup := by
  obtain ⟨hk, hchar⟩ := ChatRoom_joins_registry heap joins
  have hkey : (ChatRoom (World.start heap) (joinEvents joins)).clients.map Prod.fst =
      ((ChatRoom (World.start heap) (joinEvents joins)).clients.map Prod.snd).map
        (fun p => (heap p).uid) := by
    rw [List.map_map]
    apply List.map_congr_left
    intro e he
    have := (hchar e.1 e.2).1 he
    exact (lastJoined_some heap _ _ _ this).2.symm
  rw [hkey] at hk
  exact List.Nodup.of_map _ hk

/-- Number of sends a broadcast dispatches to one connection, the registry
binding no connection twice. -/
theorem count_dispatch (l : List (String × Ptr)) (alive : Ptr → Bool) (m : Message) (p : Ptr)
    (hnd : (l.map Prod.snd).Nodup) :
    ((l.filter (fun e => alive e.2)).map (fun e => (e.2, m))).count (p, m) =
      if p ∈ l.map Prod.snd ∧ alive p = true then 1 else 0 := by
  induction l with
  | nil => simp
  | cons e l ih =>
      rw [List.map_cons, List.nodup_cons] at hnd
      have ih := ih hnd.2
      by_cases hp : e.2 = p
      · subst hp
        have hzero : ((l.filter (fun e => alive e.2)).map (fun e => (e.2, m))).count (e.2, m) = 0 := by
          rw [ih]; simp [hnd.1]
        cases ha : alive e.2 with
        | true =>
            rw [List.filter_cons]
            simp only [ha, if_true, List.map_cons, List.count_cons_self, hzero]
            simp
        | false =>
            rw [List.filter_cons]
            simp only [ha, Bool.false_eq_true, if_false, and_false]
            exact hzero
      · have hne : ((e.2, m) == (p, m)) = false := by
          simp [hp]
        have hmem : (p ∈ (e :: l).map Prod.snd) ↔ p ∈ l.map Prod.snd := by
          simp only [List.map_cons, List.mem_cons]
          constructor
          · rintro (h | h)
            · exact absurd h.symm hp
            · exact h
          · exact Or.inr
        have hcond : (p ∈ (e :: l).map Prod.snd ∧ alive p = true) ↔
            (p ∈ l.map Prod.snd ∧ alive p = true) := by rw [hmem]
        rw [if_congr hcond rfl rfl, ← ih, List.filter_cons]
        cases hae : alive e.2 with
        | true => simp only [if_true, List.map_cons, List.count_cons, hne]; simp
        | false => simp

/-- C3 (as stated, refuted): two distinct anonymous connections, both alive,
join and a message is accepted; one send is dispatched, to the connection that
joined last, and none to the other. -/
theorem C3_anonymous_connections_collide :
    (anonHeap 0).isConnected = true ∧ (anonHeap 1).isConnected = true
    ∧ (ChatRoom (World.start anonHeap) twoAnonymousThenMessage).sends = [(1, textPayload "hi")]
    ∧ (ChatRoom (World.start anonHeap) twoAnonymousThenMessage).sends.count (0, textPayload "hi")
        = 0 := by
  decide

/-- C3 (amended): after any sequence of join events (anonymous and identified
connections, possibly sharing a uid) followed by one message event, the hub
has dispatched exactly one send of the message to each connection that is the
last one to have joined under its uid and is alive at acceptance time, and no
send to any other connection: none to a dead one, none to one that never
joined, none to one whose uid a later join took over. -/
theorem C3_broadcast_to_last_joined (heap : Ptr → Client)
    (joins : List (Ptr × Option (List User))) (m : Message) (p : Ptr) :
    (ChatRoom (World.start heap) (joinEvents joins ++ [HubEvent.message m])).sends.count (p, m) =
      if lastJoined heap (joins.map Prod.fst) (heap p).uid = some p
          ∧ ((ChatRoom (World.start heap) (joinEvents joins)).heap p).isConnected = true
      then 1 else 0 := by
  have hsplit : ChatRoom (World.start heap) (joinEvents joins ++ [HubEvent.message m]) =
      ChatRoom_message (ChatRoom (World.start heap) (joinEvents joins)) m := by
    simp [ChatRoom, List.foldl_append, ChatRoom_step]
  have hsends : (ChatRoom (World.start heap) (joinEvents joins)).sends = [] :=
    (ChatRoom_joins_heap (World.start heap) joins).2
  rw [hsplit]
  unfold ChatRoom_message
  simp only [hsends, List.nil_append]
  rw [count_dispatch _ (fun q => ((ChatRoom (World.start heap) (joinEvents joins)).heap q).isConnected)
    m p (ChatRoom_joins_ptrs_nodup heap joins)]
  have hchar := (ChatRoom_joins_registry heap joins).2
  have hiff : p ∈ (ChatRoom (World.start heap) (joinEvents joins)).clients.map Prod.snd ↔
      lastJoined heap (joins.map Prod.fst) (heap p).uid = some p := by
    constructor
    · intro h
      rw [List.mem_map] at h
      obtain ⟨e, he, hep⟩ := h
      have h1 := (hchar e.1 e.2).1 he
      have h2 := (lastJoined_some heap _ _ _ h1).2
      rw [hep] at h1 h2
      rw [h2]; exact h1
    · intro h
      exact List.mem_map.2 ⟨((heap p).uid, p), (hchar _ _).2 h, rfl⟩
  simp only [hiff]

/-! ## The hub: registry after terminations -/

/-- Each of the three ways ends the loop by a return. -/
theorem Stop_returns (w : World) (p : Ptr) (s : Stop) :
    (ReceiveMessage_iter w p s.env).2 = Flow.returned := by
  cases s with
  | closeFrame =>
      by_cases h : (w.heap p).conn.closeHandlerSet = true <;>
        simp [Stop.env, ReceiveMessage_iter, ReadJSON, h]
  | readError => simp [Stop.env, ReceiveMessage_iter, ReadJSON]
  | storeDown m => simp [Stop.env, ReceiveMessage_iter, ReadJSON]

/-- Every iteration in which `ReceiveMessage` returns is one of the three
ways. -/
theorem ReceiveMessage_iter_returned (w : World) (p : Ptr) (e : IterEnv)
    (h : (ReceiveMessage_iter w p e).2 = Flow.returned) :
    ∃ s : Stop, ReceiveMessage_iter w p e = ReceiveMessage_iter w p s.env := by
  rcases e with ⟨read, dbErr, ⟨result, err⟩⟩
  cases read with
  | closeFrame =>
      refine ⟨Stop.closeFrame, ?_⟩
      by_cases hh : (w.heap p).conn.closeHandlerSet = true <;>
        simp [Stop.env, ReceiveMessage_iter, ReadJSON, hh]
  | readError => exact ⟨Stop.readError, by simp [Stop.env, ReceiveMessage_iter, ReadJSON]⟩
  | payload m =>
      cases dbErr with
      | true => exact ⟨Stop.storeDown m, by simp [Stop.env, ReceiveMessage_iter, ReadJSON]⟩
      | false =>
          exfalso
          cases result with
          | none => simp [ReceiveMessage_iter, ReadJSON] at h
          | some r =>
              rcases r with ⟨v⟩
              cases v <;> simp [ReceiveMessage_iter, ReadJSON] at h

/-- Registry after the end of an ingestion loop. -/
theorem terminate_clients (w : World) (t : Ptr × Stop) :
    (terminate w t).clients =
      if t.2 = Stop.closeFrame ∧ (w.heap t.1).conn.closeHandlerSet = true
      then mapDelete w.clients (w.heap t.1).uid else w.clients := by
  unfold terminate
  rw [ReceiveMessage_iter_clients]
  rcases t with ⟨p, s⟩
  cases s <;> simp [Stop.env]

/-- Heap after the end of an ingestion loop: the connection is marked dead,
uids and close handlers are untouched. -/
theorem terminate_heap (w : World) (t : Ptr × Stop) (q : Ptr) :
    ((terminate w t).heap q).uid = (w.heap q).uid
    ∧ ((terminate w t).heap q).conn.closeHandlerSet = (w.heap q).conn.closeHandlerSet
    ∧ ((terminate w t).heap q).isConnected = (if q = t.1 then false else (w.heap q).isConnected) := by
  rcases t with ⟨p, s⟩
  by_cases hq : q = p
  · subst hq
    cases s with
    | closeFrame =>
        by_cases hh : (w.heap q).conn.closeHandlerSet = true <;>
          simp [terminate, Stop.env, ReceiveMessage_iter, ReadJSON, deferred, hh]
    | readError => simp [terminate, Stop.env, ReceiveMessage_iter, ReadJSON, deferred]
    | storeDown m => simp [terminate, Stop.env, ReceiveMessage_iter, ReadJSON, deferred]
  · cases s with
    | closeFrame =>
        by_cases hh : (w.heap p).conn.closeHandlerSet = true <;>
          simp [terminate, Stop.env, ReceiveMessage_iter, ReadJSON, deferred, hh,
            Function.update_noteq hq, hq]
    | readError =>
        simp [terminate, Stop.env, ReceiveMessage_iter, ReadJSON, deferred,
          Function.update_noteq hq, hq]
    | storeDown m =>
        simp [terminate, Stop.env, ReceiveMessage_iter, ReadJSON, deferred,
          Function.update_noteq hq, hq]

/-- A dead connection stays dead, and every terminated connection is dead. -/
theorem terminations_dead (ts : List (Ptr × Stop)) (w : World) :
    (∀ q, (w.heap q).isConnected = false → ((ts.foldl terminate w).heap q).isConnected = false)
    ∧ ∀ t ∈ ts, ((ts.foldl terminate w).heap t.1).isConnected = false := by
  induction ts generalizing w with
  | nil => simp
  | cons t ts ih =>
      rw [List.foldl_cons]
      refine ⟨fun q hq => ?_, fun t' ht' => ?_⟩
      · apply (ih (terminate w t)).1
        rw [(terminate_heap w t q).2.2, hq]
        simp
      · rcases List.mem_cons.1 ht' with h | h
        · apply (ih (terminate w t)).1
          rw [(terminate_heap w t t'.1).2.2, h]
          simp
        · exact (ih (terminate w t)).2 t' h

/-- Registry after the ingestion loops of `ts` have ended, every one of them
belonging to a connection whose close handler is installed: the bindings under
the uids of the connections that ended on a close frame are gone. -/
theorem terminations_registry (uid : Ptr → String) (ps : List Ptr) (ts : List (Ptr × Stop))
    (w : World) (huid : ∀ q, (w.heap q).uid = uid q)
    (hh : ∀ q ∈ ps, (w.heap q).conn.closeHandlerSet = true) (hts : ∀ t ∈ ts, t.1 ∈ ps) :
    (ts.foldl terminate w).clients =
      w.clients.filter
        (fun e => decide (e.1 ∉
          (ts.filter (fun t => decide (t.2 = Stop.closeFrame))).map (fun t => uid t.1))) := by
  induction ts generalizing w with
  | nil => simp
  | cons t ts ih =>
      rw [List.foldl_cons]
      have huid1 : ∀ q, ((terminate w t).heap q).uid = uid q := fun q =>
        (terminate_heap w t q).1.trans (huid q)
      have hh1 : ∀ q ∈ ps, ((terminate w t).heap q).conn.closeHandlerSet = true := fun q hq =>
        (terminate_heap w t q).2.1.trans (hh q hq)
      rw [ih (terminate w t) huid1 hh1 (fun t' ht' => hts t' (List.mem_cons_of_mem _ ht')),
        terminate_clients]
      have hset := hh t.1 (hts t (List.mem_cons_self _ _))
      rcases t with ⟨p, s⟩
      by_cases hs : s = Stop.closeFrame
      · subst hs
        have hf : List.filter (fun t : Ptr × Stop => decide (t.2 = Stop.closeFrame))
            ((p, Stop.closeFrame) :: ts) =
            (p, Stop.closeFrame) :: List.filter (fun t => decide (t.2 = Stop.closeFrame)) ts := by
          simp
        rw [hf]
        simp only [hset, and_self, if_true, mapDelete, huid, List.filter_filter,
          List.map_cons]
        apply List.filter_congr
        intro e _
        by_cases h1 : e.1 = uid p
        · simp [h1]
        · simp [h1]
      · have hf : List.filter (fun t : Ptr × Stop => decide (t.2 = Stop.closeFrame))
            ((p, s) :: ts) = List.filter (fun t => decide (t.2 = Stop.closeFrame)) ts := by
          simp [hs]
        rw [hf]
        simp [hs]

/-- Joins install the close handler of every connection that joined. -/
theorem ChatRoom_joins_handler (w : World) (joins : List (Ptr × Option (List User))) :
    ∀ q ∈ joins.map Prod.fst,
      ((ChatRoom w (joinEvents joins)).heap q).conn.closeHandlerSet = true := by
  induction joins using List.reverseRecOn with
  | nil => simp
  | append_singleton js j ih =>
      intro q hq
      rw [ChatRoom_joins_concat, ChatRoom_join_handler]
      rw [List.map_append, List.mem_append] at hq
      rcases hq with h | h
      · simp [ih q h]
      · have : q = j.1 := by simpa using h
        simp [this]

/-- With pairwise distinct uids no join overwrites a binding: the registry holds
one binding per connection that joined. -/
theorem ChatRoom_joins_distinct (heap : Ptr → Client)
    (joins : List (Ptr × Option (List User)))
    (hd : ((joins.map Prod.fst).map (fun p => (heap p).uid)).Nodup) :
    (ChatRoom (World.start heap) (joinEvents joins)).clients =
      ((joins.map Prod.fst).map (fun p => ((heap p).uid, p))).reverse := by
  induction joins using List.reverseRecOn with
  | nil => simp [ChatRoom, joinEvents, World.start]
  | append_singleton js j ih =>
      rw [List.map_append, List.map_append, List.nodup_append] at hd
      obtain ⟨hd1, _, hdisj⟩ := hd
      rw [ChatRoom_joins_concat, ChatRoom_join_clients, ih hd1,
        ((ChatRoom_joins_heap (World.start heap) js).1 j.1).1]
      have hself : (((js.map Prod.fst).map (fun p => ((heap p).uid, p))).reverse).filter
          (fun e => decide (e.1 ≠ (heap j.1).uid)) =
          ((js.map Prod.fst).map (fun p => ((heap p).uid, p))).reverse := by
        rw [List.filter_eq_self]
        intro e he
        rw [List.mem_reverse, List.mem_map] at he
        obtain ⟨p, hp, rfl⟩ := he
        have h1 : (heap p).uid ∈ (js.map Prod.fst).map (fun p => (heap p).uid) :=
          List.mem_map.2 ⟨p, hp, rfl⟩
        have h2 : (heap j.1).uid ∈ ([j].map Prod.fst).map (fun p => (heap p).uid) := by simp
        have hne : (heap p).uid ≠ (heap j.1).uid := fun heq => hdisj h1 (heq ▸ h2)
        simpa using hne
      simp only [mapSet, World.start, hself]
      simp

/-- Deleting one key of a map with distinct keys removes one binding. -/
theorem length_filter_ne (l : List String) (c : String) (hl : l.Nodup) (hc : c ∈ l) :
    (l.filter (fun k => decide (k ≠ c))).length = l.length - 1 := by
  have h := List.Nodup.erase_eq_filter hl c
  have h2 : l.filter (fun k => decide (k ≠ c)) = l.filter (fun k => k != c) := by
    apply List.filter_congr
    intro k _
    by_cases hk : k = c <;> simp [hk]
  rw [h2, ← h, List.length_erase_of_mem hc]

/-- Removing from a duplicate-free list a duplicate-free family of its members
shortens it by the size of the family. -/
theorem length_filter_not_mem (ks cs : List String) (hk : ks.Nodup) (hc : cs.Nodup)
    (hsub : ∀ c ∈ cs, c ∈ ks) :
    (ks.filter (fun k => decide (k ∉ cs))).length = ks.length - cs.length := by
  induction cs with
  | nil => simp
  | cons c cs ih =>
      rw [List.nodup_cons] at hc
      have ih := ih hc.2 (fun c' hc' => hsub c' (List.mem_cons_of_mem _ hc'))
      have hsplit : ks.filter (fun k => decide (k ∉ c :: cs)) =
          (ks.filter (fun k => decide (k ∉ cs))).filter (fun k => decide (k ≠ c)) := by
        rw [List.filter_filter]
        apply List.filter_congr
        intro k _
        by_cases h1 : k = c <;> simp [h1]
      have hmem : c ∈ ks.filter (fun k => decide (k ∉ cs)) := by
        rw [List.mem_filter]
        exact ⟨hsub c (List.mem_cons_self _ _), by simpa using hc.1⟩
      rw [hsplit, length_filter_ne _ c (hk.sublist (List.filter_sublist ks)) hmem, ih,
        List.length_cons]
      omega

theorem mem_closedUids (heap : Ptr → Client) (ts : List (Ptr × Stop)) (k : String) :
    k ∈ closedUids heap ts ↔ ∃ t ∈ ts, t.2 = Stop.closeFrame ∧ (heap t.1).uid = k := by
  unfold closedUids
  simp only [List.mem_map, List.mem_filter, decide_eq_true_eq]
  constructor
  · rintro ⟨t, ⟨ht, hc⟩, hu⟩
    exact ⟨t, ht, hc, hu⟩
  · rintro ⟨t, ht, hc, hu⟩
    exact ⟨t, ⟨ht, hc⟩, hu⟩

/-- Some connection joined last under a uid exactly when some connection
joined under it. -/
theorem lastJoined_isSome (heap : Ptr → Client) (ps : List Ptr) (k : String) :
    (∃ p, lastJoined heap ps k = some p) ↔ k ∈ ps.map (fun p => (heap p).uid) := by
  constructor
  · rintro ⟨p, hp⟩
    obtain ⟨h1, h2⟩ := lastJoined_some heap ps k p hp
    exact List.mem_map.2 ⟨p, h1, h2⟩
  · intro hk
    rw [List.mem_map] at hk
    obtain ⟨p, hp, hu⟩ := hk
    cases h : lastJoined heap ps k with
    | some q => exact ⟨q, rfl⟩
    | none =>
        exfalso
        unfold lastJoined at h
        rw [List.getLast?_eq_none_iff, List.filter_eq_nil_iff] at h
        exact h p hp (by simpa using hu)

/-- Registry after joins and terminations of connections that joined: the
registry the joins built, without the bindings under the closed uids. -/
theorem afterTerminations_clients (heap : Ptr → Client)
    (joins : List (Ptr × Option (List User))) (ts : List (Ptr × Stop))
    (hts : ∀ t ∈ ts, t.1 ∈ joins.map Prod.fst) :
    (afterTerminations heap joins ts).clients =
      (ChatRoom (World.start heap) (joinEvents joins)).clients.filter
        (fun e => decide (e.1 ∉ closedUids heap ts)) :=
  terminations_registry (fun p => (heap p).uid) (joins.map Prod.fst) ts
    (ChatRoom (World.start heap) (joinEvents joins))
    (fun q => ((ChatRoom_joins_heap (World.start heap) joins).1 q).1)
    (ChatRoom_joins_handler (World.start heap) joins) hts

/-- Size of the registry when the connections that joined have pairwise
distinct uids and each terminated once. -/
theorem afterTerminations_length_distinct (heap : Ptr → Client)
    (joins : List (Ptr × Option (List User))) (ts : List (Ptr × Stop))
    (hts : ∀ t ∈ ts, t.1 ∈ joins.map Prod.fst)
    (hd : ((joins.map Prod.fst).map (fun p => (heap p).uid)).Nodup)
    (htn : (ts.map Prod.fst).Nodup) :
    (afterTerminations heap joins ts).clients.length
      = joins.length - (ts.filter (fun t => decide (t.2 = Stop.closeFrame))).length := by
  have hinj := List.inj_on_of_nodup_map hd
  have hreg := afterTerminations_clients heap joins ts hts
  rw [ChatRoom_joins_distinct heap joins hd] at hreg
  have hL0 : (((joins.map Prod.fst).map (fun p => ((heap p).uid, p))).reverse).map Prod.fst =
      ((joins.map Prod.fst).map (fun p => (heap p).uid)).reverse := by
    rw [List.map_reverse, List.map_map]
    rfl
  have hcn : (closedUids heap ts).Nodup := by
    have h1 : ((ts.filter (fun t => decide (t.2 = Stop.closeFrame))).map Prod.fst).Nodup :=
      htn.sublist ((List.filter_sublist ts).map Prod.fst)
    have h2 := List.Nodup.map_on (f := fun p => (heap p).uid)
      (l := (ts.filter (fun t => decide (t.2 = Stop.closeFrame))).map Prod.fst)
      (fun x hx y hy hxy => by
        rw [List.mem_map] at hx hy
        obtain ⟨tx, htx, rfl⟩ := hx
        obtain ⟨ty, hty, rfl⟩ := hy
        exact hinj (hts tx (List.mem_filter.1 htx).1) (hts ty (List.mem_filter.1 hty).1) hxy) h1
    rw [List.map_map] at h2
    exact h2
  have hsub : ∀ c ∈ closedUids heap ts,
      c ∈ ((joins.map Prod.fst).map (fun p => (heap p).uid)).reverse := by
    intro c hc
    rw [mem_closedUids] at hc
    obtain ⟨t, ht, _, rfl⟩ := hc
    rw [List.mem_reverse]
    exact List.mem_map.2 ⟨t.1, hts t ht, rfl⟩
  have h := length_filter_not_mem _ _ (List.nodup_reverse.2 hd) hcn hsub
  rw [← hL0, List.filter_map, List.length_map, List.length_map, List.length_reverse,
    List.length_map, List.length_map] at h
  have hc : (closedUids heap ts).length
      = (ts.filter (fun t => decide (t.2 = Stop.closeFrame))).length := by
    simp [closedUids]
  rw [hc] at h
  rw [hreg]
  exact h

/-- C4 (as stated, refuted): a single registered connection stops on a read
error and the registry still holds it, one binding instead of none; two
anonymous connections join and the first stops on a close frame, and the
registry is empty although the second is alive, no binding instead of one;
two anonymous connections join and none stops, and the registry holds one
binding instead of two. -/
theorem C4_registry_is_not_the_survivors :
    (afterTerminations anonHeap [(0, none)] [(0, Stop.readError)]).clients = [("", 0)]
    ∧ ((afterTerminations anonHeap [(0, none)] [(0, Stop.readError)]).heap 0).isConnected = false
    ∧ (afterTerminations anonHeap [(0, none), (1, none)] [(0, Stop.closeFrame)]).clients = []
    ∧ ((afterTerminations anonHeap [(0, none), (1, none)]
          [(0, Stop.closeFrame)]).heap 1).isConnected = true
    ∧ (afterTerminations anonHeap [(0, none), (1, none)] []).clients = [("", 1)] := by
  decide

/-- C4 (amended): the hub registers K connections and the ingestion loops of J
of them stop (close frame, protocol or read error, store unreachable).  Every
stopped connection is marked dead.  The registry binds a uid to a connection
exactly when that connection was the last to join under the uid and no stopped
connection with that uid stopped on a close frame; so a connection is in the
registry exactly when it was the last to join under its uid and no close frame
came for its uid, whether or not its own loop has stopped.  The size of the
registry is the number of distinct uids of the K connections that are not the
uid of a connection stopped on a close frame; when the K uids are pairwise
distinct and each of the J connections stopped once, it is K minus the number
of connections that stopped on a close frame, that is K−J when all J did. -/
theorem C4_registry_after_terminations (heap : Ptr → Client)
    (joins : List (Ptr × Option (List User))) (ts : List (Ptr × Stop))
    (hts : ∀ t ∈ ts, t.1 ∈ joins.map Prod.fst) :
    (∀ t ∈ ts, ((afterTerminations heap joins ts).heap t.1).isConnected = false)
    ∧ (∀ k p, (k, p) ∈ (afterTerminations heap joins ts).clients ↔
        lastJoined heap (joins.map Prod.fst) k = some p ∧ k ∉ closedUids heap ts)
    ∧ (∀ p, p ∈ (afterTerminations heap joins ts).clients.map Prod.snd ↔
        lastJoined heap (joins.map Prod.fst) (heap p).uid = some p
          ∧ (heap p).uid ∉ closedUids heap ts)
    ∧ (afterTerminations heap joins ts).clients.length
        = ((((joins.map Prod.fst).map (fun p => (heap p).uid)).dedup).filter
            (fun k => decide (k ∉ closedUids heap ts))).length
    ∧ (((joins.map Prod.fst).map (fun p => (heap p).uid)).Nodup → (ts.map Prod.fst).Nodup →
        (afterTerminations heap joins ts).clients.length
          = joins.length - (ts.filter (fun t => decide (t.2 = Stop.closeFrame))).length)
    ∧ (((joins.map Prod.fst).map (fun p => (heap p).uid)).Nodup → (ts.map Prod.fst).Nodup →
        (∀ t ∈ ts, t.2 = Stop.closeFrame) →
        (afterTerminations heap joins ts).clients.length = joins.length - ts.length) := by
  have hreg := afterTerminations_clients heap joins ts hts
  obtain ⟨hkeys, hchar⟩ := ChatRoom_joins_registry heap joins
  have hpair : ∀ k p, (k, p) ∈ (afterTerminations heap joins ts).clients ↔
      lastJoined heap (joins.map Prod.fst) k = some p ∧ k ∉ closedUids heap ts := by
    intro k p
    rw [hreg, List.mem_filter, hchar k p]
    simp
  refine ⟨(terminations_dead ts _).2, hpair, ?_, ?_, ?_, ?_⟩
  · intro p
    rw [List.mem_map]
    constructor
    · rintro ⟨e, he, rfl⟩
      have h1 := (hpair e.1 e.2).1 he
      have h2 := (lastJoined_some heap _ _ _ h1.1).2
      rw [h2]
      exact h1
    · intro h
      exact ⟨((heap p).uid, p), (hpair _ _).2 h, rfl⟩
  · have hn1 : ((afterTerminations heap joins ts).clients.map Prod.fst).Nodup := by
      rw [hreg]
      exact hkeys.sublist ((List.filter_sublist _).map Prod.fst)
    have hn2 : ((((joins.map Prod.fst).map (fun p => (heap p).uid)).dedup).filter
        (fun k => decide (k ∉ closedUids heap ts))).Nodup :=
      (List.nodup_dedup _).filter _
    have hperm := (List.perm_ext_iff_of_nodup hn1 hn2).2 (fun k => by
      rw [List.mem_map, List.mem_filter, List.mem_dedup, ← lastJoined_isSome]
      constructor
      · rintro ⟨e, he, rfl⟩
        have h1 := (hpair e.1 e.2).1 he
        exact ⟨⟨e.2, h1.1⟩, by simpa using h1.2⟩
      · rintro ⟨⟨p, hp⟩, hk⟩
        exact ⟨(k, p), (hpair k p).2 ⟨hp, by simpa using hk⟩, rfl⟩)
    have := hperm.length_eq
    rwa [List.length_map] at this
  · intro hd htn
    exact afterTerminations_length_distinct heap joins ts hts hd htn
  · intro hd htn hall
    have hf : ts.filter (fun t => decide (t.2 = Stop.closeFrame)) = ts := by
      rw [List.filter_eq_self]
      intro t ht
      simpa using hall t ht
    rw [afterTerminations_length_distinct heap joins ts hts hd htn, hf]

/-- C4 (amended), at two concrete runs: two anonymous connections join, the
first stops on a close frame, and the registry is empty; two connections with
distinct uids join, the first stops on a close frame, and the registry holds
one binding. -/
theorem C4_registry_after_terminations_witness :
    (∀ t ∈ [((0 : Ptr), Stop.closeFrame)],
        t.1 ∈ [((0 : Ptr), (none : Option (List User))), (1, none)].map Prod.fst)
    ∧ (afterTerminations anonHeap [(0, none), (1, none)] [(0, Stop.closeFrame)]).clients.length
        = 0
    ∧ (([((0 : Ptr), (none : Option (List User))), (1, none)].map Prod.fst).map
        (fun p => (mixedHeap p).uid)).Nodup
    ∧ ([((0 : Ptr), Stop.closeFrame)].map Prod.fst).Nodup
    ∧ (afterTerminations mixedHeap [(0, none), (1, none)] [(0, Stop.closeFrame)]).clients.length
        = 1 := by
  have hts : ∀ t ∈ [((0 : Ptr), Stop.closeFrame)],
      t.1 ∈ [((0 : Ptr), (none : Option (List User))), (1, none)].map Prod.fst := by decide
  have hd : (([((0 : Ptr), (none : Option (List User))), (1, none)].map Prod.fst).map
      (fun p => (mixedHeap p).uid)).Nodup := by decide
  have htn : ([((0 : Ptr), Stop.closeFrame)].map Prod.fst).Nodup := by decide
  refine ⟨hts, ?_, hd, htn, ?_⟩
  · rw [(C4_registry_after_terminations anonHeap [(0, none), (1, none)] [(0, Stop.closeFrame)]
      hts).2.2.2.1]
    decide
  · exact (C4_registry_after_terminations mixedHeap [(0, none), (1, none)]
      [(0, Stop.closeFrame)] hts).2.2.2.2.1 hd htn

end Chat
